import Mathlib

/-!
Verification of the layout-planning and generation-reliability engine of the
ai-article-generator repository.

The TypeScript source is shallowly embedded: JavaScript `number` arithmetic on
block counts and insertion indices is modelled with `Nat` / `Int`, and the one
fractional computation (the even-distribution `step` of the programmatic
placer, and the `0.25` clustering threshold) with exact rationals `ℚ`
(`Math.round x` is `⌊x + 1/2⌋`, which is Mathlib's `round`; `Math.floor` is
`Int.floor`).  External service calls (layout proposal, vision judgment,
image synthesis, prompt refinement) are modelled as explicit outcome
parameters / oracle environments, with `Except` for calls that can throw.
-/

/-- An image artifact: `{ filename, base64, mimeType }` as used throughout
the image service.  Filenames are the sole identity key. -/
structure ImageArtifact where
  filename : String
  base64 : String
  mimeType : String
deriving DecidableEq, Repr

/-- `Placement` from `types.ts`: `{ imageFilename, afterParagraphIndex }`.
The index is an `Int` because a raw AI proposal may contain negative or
out-of-range values. -/
structure Placement where
  imageFilename : String
  afterParagraphIndex : ℤ
deriving DecidableEq, Repr

/-- `PlacementStrategy` from `types.ts`:
`{ headerImageFilename, placements }`. -/
structure PlacementStrategy where
  headerImageFilename : String
  placements : List Placement
deriving DecidableEq, Repr

/-- The ideal (unclamped) insertion index of the programmatic placer for the
body image at 0-based position `index`:
`Math.round((index + 1) * step) - 1` with
`step = totalBlocks / (bodyCount + 1)`. -/
def programmaticIdealIndex (totalBlocks bodyCount : ℕ) (index : ℕ) : ℤ :=
  round (((index : ℚ) + 1) * ((totalBlocks : ℚ) / ((bodyCount : ℚ) + 1))) - 1

/-- `getProgrammaticPlacement` (imageService): the deterministic fallback
layout.  Header is the override when that is a non-empty string (JavaScript
`headerImageFilenameOverride || images[0].filename`), else the first image;
the remaining images are spread evenly, the `i`-th landing after block
`round((i+1) * step) - 1` clamped into `[0, maxIndex]`. -/
def getProgrammaticPlacement (images : List ImageArtifact)
    (contentBlocks : List String)
    (headerImageFilenameOverride : Option String) : PlacementStrategy :=
  match images with
  | [] => { headerImageFilename := "", placements := [] }
  | firstImage :: _ =>
    let headerImageFilename :=
      match headerImageFilenameOverride with
      | some s => if s = "" then firstImage.filename else s
      | none => firstImage.filename
    let bodyImages := images.filter (fun img => img.filename ≠ headerImageFilename)
    if bodyImages.isEmpty then
      { headerImageFilename := headerImageFilename, placements := [] }
    else
      let totalBlocks := contentBlocks.length
      let maxIndex : ℤ := if totalBlocks > 0 then (totalBlocks : ℤ) - 1 else 0
      let placements := bodyImages.mapIdx (fun index image =>
        { imageFilename := image.filename,
          afterParagraphIndex :=
            max 0 (min maxIndex (programmaticIdealIndex totalBlocks bodyImages.length index)) })
      { headerImageFilename := headerImageFilename, placements := placements }

/-- `Math.max(...indices)` for a non-empty list (the call sites guard the
empty case with a ternary yielding `0`). -/
def maxIndexOf : List ℤ → ℤ
  | [] => 0
  | x :: xs => xs.foldl max x

/-- The `isClustered` closure of `planImagePlacements`: a layout is
degenerate when (with at least 2 body placements and at least 5 blocks)
either the maximum proposed index lies below `Math.floor(blockCount * 0.25)`
or the number of distinct indices is at most `Math.floor(count / 2)`. -/
def isClustered (indices : List ℤ) (blockCount : ℕ) : Bool :=
  if indices.length < 2 ∨ blockCount < 5 then false
  else
    let maxIndex : ℤ := if indices.length > 0 then maxIndexOf indices else 0
    if maxIndex < ⌊(blockCount : ℚ) * 0.25⌋ then true
    else if (indices.dedup.length : ℤ) ≤ ⌊(indices.length : ℚ) / 2⌋ then true
    else false

/-- Header resolution of the evolved `planImagePlacements` (suitability
gate): when the AI-chosen header exists in the batch and the gate judged it
unsuitable, a successfully generated replacement (`genResult`) becomes the
header and is recorded as a new image; otherwise the AI's choice stands. -/
def resolveHeader (images : List ImageArtifact) (initialHeader : String)
    (suitable : Bool) (genResult : Option ImageArtifact) :
    String × List ImageArtifact :=
  match images.find? (fun img => img.filename = initialHeader) with
  | some _ =>
    if suitable then (initialHeader, [])
    else
      match genResult with
      | some newHeader => (newHeader.filename, [newHeader])
      | none => (initialHeader, [])
  | none => (initialHeader, [])

/-- Body-placement repair of the evolved `planImagePlacements`: keep only
proposed placements that name a known non-header image, then append a
last-block placement for every known non-header image the proposal left
unplaced. -/
def planBodyPlacements (allImages : List ImageArtifact) (finalHeader : String)
    (proposed : List Placement) (maxIndex : ℤ) : List Placement :=
  let bodyPlacements := proposed.filter (fun p =>
    p.imageFilename ≠ finalHeader ∧
    allImages.any (fun img => img.filename = p.imageFilename))
  let placedBodyImages := bodyPlacements.map (fun p => p.imageFilename)
  bodyPlacements ++
    (allImages.filter (fun img =>
      img.filename ≠ finalHeader ∧
      img.filename ∉ placedBodyImages)).map
      (fun img => { imageFilename := img.filename, afterParagraphIndex := maxIndex })

/-- The validation-and-cleanup pass of the evolved `planImagePlacements`
(after the layout response parsed): resolve the header through the
suitability gate, fall back to the programmatic placer when the final header
names no known image, repair the body placements, discard the whole layout
for the programmatic placer when clustered, and finally reset out-of-range
indices to the last block. -/
def planValidate (images : List ImageArtifact) (contentBlocks : List String)
    (initialStrategy : PlacementStrategy) (suitable : Bool)
    (genResult : Option ImageArtifact) :
    PlacementStrategy × List ImageArtifact :=
  let resolved := resolveHeader images initialStrategy.headerImageFilename suitable genResult
  let finalHeaderImageFilename := resolved.1
  let newImages := resolved.2
  let allImages := images ++ newImages
  if ! allImages.any (fun img => img.filename = finalHeaderImageFilename) then
    (getProgrammaticPlacement images contentBlocks none, [])
  else
    let maxIndex : ℤ :=
      if contentBlocks.length > 0 then (contentBlocks.length : ℤ) - 1 else 0
    let bodyPlacements2 := planBodyPlacements allImages finalHeaderImageFilename
      initialStrategy.placements maxIndex
    let indices := bodyPlacements2.map (fun p => p.afterParagraphIndex)
    if isClustered indices contentBlocks.length then
      (getProgrammaticPlacement allImages contentBlocks (some finalHeaderImageFilename),
        newImages)
    else
      let finalPlacements := bodyPlacements2.map (fun p =>
        if p.afterParagraphIndex < 0 ∨ p.afterParagraphIndex > maxIndex then
          { p with afterParagraphIndex := maxIndex }
        else p)
      ({ headerImageFilename := finalHeaderImageFilename,
         placements := finalPlacements }, newImages)

/-- `planImagePlacements` (evolved variant): fail fast on an empty batch,
degrade fully to the programmatic placer when the layout service call throws
or its response does not parse (`layoutResponse = .error`), otherwise run
the validation pass. -/
def planImagePlacements (images : List ImageArtifact)
    (contentBlocks : List String)
    (layoutResponse : Except String PlacementStrategy) (suitable : Bool)
    (genResult : Option ImageArtifact) :
    Except String (PlacementStrategy × List ImageArtifact) :=
  if images.length = 0 then
    .error "No images provided for placement planning."
  else
    match layoutResponse with
    | .error _ => .ok (getProgrammaticPlacement images contentBlocks none, [])
    | .ok initialStrategy =>
      .ok (planValidate images contentBlocks initialStrategy suitable genResult)

/-- The `{ base64, mimeType }` pair produced by a successful synthesis. -/
structure ImageData where
  base64 : String
  mimeType : String
deriving DecidableEq, Repr

/-- The synthesis configuration passed to `generateAndVerifyImage`. -/
structure GenConfig where
  numberOfImages : ℕ
  outputMimeType : String
  aspectRatio : String
deriving DecidableEq, Repr

/-- One external call made by the retry loop, with the data the code puts
into the request: the prompt a synthesis runs on, the prompt a verification
judges against, and the three strings handed to `getImprovedPrompt`. -/
inductive CallEvent where
  | synthesisCall (prompt : String)
  | verificationCall (originalPrompt : String)
  | refinementCall (originalPrompt lastAttemptedPrompt failureReason : String)
deriving DecidableEq, Repr

/-- Oracle for the external generative service, indexed by attempt number:
`generateImages` yields a service error, no image, or the image bytes;
`verifyImage` yields a service error or `(hasGarbledText, isRelevant)`;
`improvePrompt` is `getImprovedPrompt`'s text completion
`(originalPrompt, lastAttemptedPrompt, failureReason) ↦ new prompt`. -/
structure GenEnv where
  generateImages : ℕ → String → Except String (Option String)
  verifyImage : ℕ → String → String → Except String (Bool × Bool)
  improvePrompt : String → String → String → String

/-- Failure reason when synthesis returns no image (source line 120). -/
def noOutputReason : String :=
  "The model failed to generate an image, possibly due to a policy violation or unclear instruction in the prompt."

/-- Failure reason fed to refinement after a service error (line 191). -/
def apiErrorReason (err : String) : String :=
  "The API returned an error: " ++ err ++ ". The prompt may be unsafe or invalid."

/-- The error thrown when the final attempt returns no image (line 118). -/
def noImageMessage (maxAttempts : ℕ) (originalPrompt : String) : String :=
  "Failed to generate image after " ++ toString maxAttempts ++
    " attempts for prompt: " ++ originalPrompt

/-- The terminal error of the exhausted retry loop (line 197). -/
def exhaustedMessage (maxAttempts : ℕ) (originalPrompt : String) : String :=
  "Failed to generate a valid image after " ++ toString maxAttempts ++
    " attempts for prompt: " ++ originalPrompt

/-- The quality axis messages of lines 175 and 178. -/
def garbledTextReason : String := "it contained garbled, nonsensical text"

def notRelevantReason : String :=
  "it was not visually relevant to the prompt's subject matter"

/-- The composite rejection reason (lines 173-180): one entry per failed
axis, joined with " and ". -/
def verificationFailureReason (hasGarbledText isRelevant : Bool) : String :=
  String.intercalate " and "
    ((if hasGarbledText then [garbledTextReason] else []) ++
      (if !isRelevant then [notRelevantReason] else []))

/-- The retry loop body of `generateAndVerifyImage`.  `remaining` counts the
iterations the `while attempts < maxAttempts` loop may still run, `attempts`
is the counter before the increment at the top of the body, `currentPrompt`
the prompt of the next synthesis.  Returns the trace of external calls and
the function's result (`.error` models a thrown exception). -/
def genLoop (env : GenEnv) (originalPrompt : String) (config : GenConfig)
    (maxAttempts : ℕ) :
    ℕ → ℕ → String → List CallEvent × Except String ImageData
  | 0, _, _ => ([], .error (exhaustedMessage maxAttempts originalPrompt))
  | remaining + 1, attempts, currentPrompt =>
    let attempts' := attempts + 1
    match env.generateImages attempts' currentPrompt with
    | .error err =>
      if maxAttempts ≤ attempts' then
        ([.synthesisCall currentPrompt], .error err)
      else
        let failureReason := apiErrorReason err
        let rest := genLoop env originalPrompt config maxAttempts remaining attempts'
          (env.improvePrompt originalPrompt currentPrompt failureReason)
        (.synthesisCall currentPrompt ::
          .refinementCall originalPrompt currentPrompt failureReason :: rest.1, rest.2)
    | .ok none =>
      if maxAttempts ≤ attempts' then
        ([.synthesisCall currentPrompt],
          .error (noImageMessage maxAttempts originalPrompt))
      else
        let rest := genLoop env originalPrompt config maxAttempts remaining attempts'
          (env.improvePrompt originalPrompt currentPrompt noOutputReason)
        (.synthesisCall currentPrompt ::
          .refinementCall originalPrompt currentPrompt noOutputReason :: rest.1, rest.2)
    | .ok (some imageBytes) =>
      let imageData : ImageData :=
        { base64 := imageBytes,
          mimeType :=
            if config.outputMimeType = "" then "image/png" else config.outputMimeType }
      match env.verifyImage attempts' originalPrompt imageData.base64 with
      | .error err =>
        if maxAttempts ≤ attempts' then
          ([.synthesisCall currentPrompt, .verificationCall originalPrompt], .error err)
        else
          let failureReason := apiErrorReason err
          let rest := genLoop env originalPrompt config maxAttempts remaining attempts'
            (env.improvePrompt originalPrompt currentPrompt failureReason)
          (.synthesisCall currentPrompt :: .verificationCall originalPrompt ::
            .refinementCall originalPrompt currentPrompt failureReason :: rest.1, rest.2)
      | .ok (hasGarbledText, isRelevant) =>
        if !hasGarbledText && isRelevant then
          ([.synthesisCall currentPrompt, .verificationCall originalPrompt],
            .ok imageData)
        else if maxAttempts ≤ attempts' then
          ([.synthesisCall currentPrompt, .verificationCall originalPrompt],
            .error (exhaustedMessage maxAttempts originalPrompt))
        else
          let fullReason := verificationFailureReason hasGarbledText isRelevant
          let rest := genLoop env originalPrompt config maxAttempts remaining attempts'
            (env.improvePrompt originalPrompt currentPrompt fullReason)
          (.synthesisCall currentPrompt :: .verificationCall originalPrompt ::
            .refinementCall originalPrompt currentPrompt fullReason :: rest.1, rest.2)

/-- `generateAndVerifyImage`: run the retry loop from attempt 0 with the
original prompt (default budget 3). -/
def generateAndVerifyImage (env : GenEnv) (originalPrompt : String)
    (config : GenConfig) (maxAttempts : ℕ := 3) :
    List CallEvent × Except String ImageData :=
  genLoop env originalPrompt config maxAttempts maxAttempts 0 originalPrompt

/-- Number of image-synthesis calls in a trace. -/
def synthesisCount (events : List CallEvent) : ℕ :=
  events.countP fun e => match e with | .synthesisCall _ => true | _ => false

/-- Number of prompt-refinement calls in a trace. -/
def refinementCount (events : List CallEvent) : ℕ :=
  events.countP fun e => match e with | .refinementCall _ _ _ => true | _ => false

/-- The prompts that quality-verification requests were issued against. -/
def verificationPrompts (events : List CallEvent) : List String :=
  events.filterMap fun e =>
    match e with | .verificationCall p => some p | _ => none

/-- `isHeaderImageSuitable`: one structured vision judgment; the whole body
is wrapped in try/catch and any failure (service error or unparseable
response, `judge ... = .error`) yields `true`. -/
def isHeaderImageSuitable
    (judge : ImageData → String → String → Except String Bool)
    (image : ImageData) (articleTitle articleContent : String) : Bool :=
  match judge image articleTitle articleContent with
  | .ok isSuitable => isSuitable
  | .error _ => true

example :
    getProgrammaticPlacement
      [⟨"header.png", "", ""⟩, ⟨"a.png", "", ""⟩, ⟨"b.png", "", ""⟩, ⟨"c.png", "", ""⟩]
      (List.replicate 10 "block") (some "header.png") =
    { headerImageFilename := "header.png",
      placements := [⟨"a.png", 2⟩, ⟨"b.png", 4⟩, ⟨"c.png", 7⟩] } := by
  simp [getProgrammaticPlacement, List.filter_cons, List.mapIdx_cons]
  norm_num [programmaticIdealIndex, round_eq]

example : isClustered [0, 0, 0] 10 = true := by
  norm_num [isClustered, maxIndexOf, List.dedup]

example : isClustered [0, 1] 5 = false := by
  norm_num [isClustered, maxIndexOf, List.dedup]

/-! ### Claim C2: the cluster detector -/

/-- C2, counterexample: with `blockCount = 5` and proposed indices `[0, 1]`
the maximum index `1` is below `0.25 * 5 = 1.25`, so the claim as stated
requires a degenerate verdict, but `isClustered` compares against
`Math.floor(blockCount * 0.25) = 1` and returns `false`. -/
theorem isClustered_quarter_counterexample :
    isClustered [0, 1] 5 = false ∧
    2 ≤ ([0, 1] : List ℤ).length ∧ (5 : ℕ) ≥ 5 ∧
    ((maxIndexOf [0, 1] : ℚ) < 0.25 * 5) := by
  refine ⟨?_, by simp, by norm_num, ?_⟩
  · norm_num [isClustered, maxIndexOf, List.dedup]
  · norm_num [maxIndexOf]

/-- C2, amended: with at least 2 proposed indices and `blockCount ≥ 5`, the
detector reports degenerate whenever the maximum proposed index is below
`⌊0.25 * blockCount⌋` (the floored 25% threshold the code computes); and
with fewer than 2 body placements or `blockCount < 5` it never reports
degenerate. -/
theorem isClustered_amended_spec :
    (∀ (indices : List ℤ) (blockCount : ℕ),
      2 ≤ indices.length → 5 ≤ blockCount →
      maxIndexOf indices < ⌊(blockCount : ℚ) * 0.25⌋ →
      isClustered indices blockCount = true) ∧
    (∀ (indices : List ℤ) (blockCount : ℕ),
      indices.length < 2 ∨ blockCount < 5 →
      isClustered indices blockCount = false) := by
  constructor
  · intro indices blockCount h2 h5 hmax
    unfold isClustered
    rw [if_neg (by omega)]
    rw [if_pos (by omega : indices.length > 0)]
    rw [if_pos hmax]
  · intro indices blockCount h
    unfold isClustered
    rw [if_pos h]

/-- C2, witness: the amended theorem applied at `[0, 0]`, `blockCount = 5`
(degenerate: maximum `0 < ⌊1.25⌋ = 1`) and at `[7]`, `blockCount = 3`
(too few placements and too few blocks: never degenerate). -/
theorem isClustered_amended_spec_witness :
    isClustered [0, 0] 5 = true ∧ isClustered [7] 3 = false := by
  constructor
  · exact isClustered_amended_spec.1 [0, 0] 5 (by simp) (by norm_num)
      (by norm_num [maxIndexOf])
  · exact isClustered_amended_spec.2 [7] 3 (by norm_num)

/-! ### Claim C5: total layout-service failure degrades to the programmatic placer -/

/-- C5: when the layout-service call throws or its response fails to parse
(`layoutResponse = .error`), `planImagePlacements` on a non-empty batch
returns `.ok` (no failure surfaced) with exactly the programmatic strategy
for the supplied images and blocks with no header override, whose header is
the first supplied image. -/
theorem planImagePlacements_service_failure
    (images : List ImageArtifact) (contentBlocks : List String)
    (err : String) (suitable : Bool) (genResult : Option ImageArtifact)
    (hne : images ≠ []) :
    planImagePlacements images contentBlocks (.error err) suitable genResult =
      .ok (getProgrammaticPlacement images contentBlocks none, []) ∧
    ∀ firstImage rest, images = firstImage :: rest →
      (getProgrammaticPlacement images contentBlocks none).headerImageFilename =
        firstImage.filename := by
  constructor
  · unfold planImagePlacements
    rw [if_neg (by simpa using hne)]
  · rintro firstImage rest rfl
    simp only [getProgrammaticPlacement]
    split <;> rfl

/-- C5, witness: a one-image batch with a failing layout service. -/
theorem planImagePlacements_service_failure_witness :
    planImagePlacements [⟨"x.png", "d", "image/png"⟩] ["b0", "b1"]
        (.error "network down") true none =
      .ok (getProgrammaticPlacement [⟨"x.png", "d", "image/png"⟩] ["b0", "b1"] none, []) ∧
    (getProgrammaticPlacement [⟨"x.png", "d", "image/png"⟩] ["b0", "b1"] none).headerImageFilename =
      "x.png" := by
  have h := planImagePlacements_service_failure [⟨"x.png", "d", "image/png"⟩]
    ["b0", "b1"] "network down" true none (by simp)
  exact ⟨h.1, h.2 ⟨"x.png", "d", "image/png"⟩ [] rfl⟩

/-! ### Claim C6: the header-suitability gate fails open -/

/-- C6: whenever the vision judgment inside `isHeaderImageSuitable` fails
(service error or unparseable output), the function returns `true` — the
image is treated as suitable and no error reaches the caller. -/
theorem isHeaderImageSuitable_fails_open
    (judge : ImageData → String → String → Except String Bool)
    (image : ImageData) (articleTitle articleContent : String) (err : String)
    (h : judge image articleTitle articleContent = .error err) :
    isHeaderImageSuitable judge image articleTitle articleContent = true := by
  unfold isHeaderImageSuitable
  rw [h]

/-- C6, witness: a judge that always throws. -/
theorem isHeaderImageSuitable_fails_open_witness :
    isHeaderImageSuitable (fun _ _ _ => .error "service unavailable")
      ⟨"bytes", "image/png"⟩ "Title" "Summary" = true :=
  isHeaderImageSuitable_fails_open (fun _ _ _ => .error "service unavailable")
    ⟨"bytes", "image/png"⟩ "Title" "Summary" "service unavailable" rfl

/-! ### Trace bookkeeping lemmas -/

@[simp] lemma synthesisCount_nil : synthesisCount [] = 0 := rfl

@[simp] lemma synthesisCount_synth (p : String) (l : List CallEvent) :
    synthesisCount (.synthesisCall p :: l) = synthesisCount l + 1 := by
  simp [synthesisCount, List.countP_cons]

@[simp] lemma synthesisCount_verify (p : String) (l : List CallEvent) :
    synthesisCount (.verificationCall p :: l) = synthesisCount l := by
  simp [synthesisCount, List.countP_cons]

@[simp] lemma synthesisCount_refine (a b c : String) (l : List CallEvent) :
    synthesisCount (.refinementCall a b c :: l) = synthesisCount l := by
  simp [synthesisCount, List.countP_cons]

@[simp] lemma refinementCount_nil : refinementCount [] = 0 := rfl

@[simp] lemma refinementCount_synth (p : String) (l : List CallEvent) :
    refinementCount (.synthesisCall p :: l) = refinementCount l := by
  simp [refinementCount, List.countP_cons]

@[simp] lemma refinementCount_verify (p : String) (l : List CallEvent) :
    refinementCount (.verificationCall p :: l) = refinementCount l := by
  simp [refinementCount, List.countP_cons]

@[simp] lemma refinementCount_refine (a b c : String) (l : List CallEvent) :
    refinementCount (.refinementCall a b c :: l) = refinementCount l + 1 := by
  simp [refinementCount, List.countP_cons]

@[simp] lemma verificationPrompts_nil : verificationPrompts [] = [] := rfl

@[simp] lemma verificationPrompts_synth (p : String) (l : List CallEvent) :
    verificationPrompts (.synthesisCall p :: l) = verificationPrompts l := by
  simp [verificationPrompts]

@[simp] lemma verificationPrompts_verify (p : String) (l : List CallEvent) :
    verificationPrompts (.verificationCall p :: l) = p :: verificationPrompts l := by
  simp [verificationPrompts]

@[simp] lemma verificationPrompts_refine (a b c : String) (l : List CallEvent) :
    verificationPrompts (.refinementCall a b c :: l) = verificationPrompts l := by
  simp [verificationPrompts]

/-! ### Claim C4: the retry budget -/

/-- Core induction: when no verification ever passes, every run of the loop
with `attempts + remaining = maxAttempts` makes at most `remaining`
synthesis calls, at most `remaining - 1` refinement calls, and ends in an
error. -/
lemma genLoop_all_fail (env : GenEnv) (originalPrompt : String)
    (config : GenConfig) (maxAttempts : ℕ)
    (hverify : ∀ a p, env.verifyImage a originalPrompt p ≠ .ok (false, true)) :
    ∀ remaining attempts currentPrompt, attempts + remaining = maxAttempts →
      synthesisCount (genLoop env originalPrompt config maxAttempts
        remaining attempts currentPrompt).1 ≤ remaining ∧
      refinementCount (genLoop env originalPrompt config maxAttempts
        remaining attempts currentPrompt).1 ≤ remaining - 1 ∧
      ∃ e, (genLoop env originalPrompt config maxAttempts
        remaining attempts currentPrompt).2 = .error e := by
  intro remaining
  induction remaining with
  | zero =>
    intro attempts cur hinv
    simp [genLoop]
  | succ n ih =>
    intro attempts cur hinv
    simp only [genLoop]
    cases hgen : env.generateImages (attempts + 1) cur with
    | error e =>
      simp only [hgen]
      by_cases hm : maxAttempts ≤ attempts + 1
      · rw [if_pos hm]
        simp
      · rw [if_neg hm]
        obtain ⟨h1, h2, h3⟩ := ih (attempts + 1) _ (by omega)
        refine ⟨by simpa using Nat.succ_le_succ h1, ?_, h3⟩
        simp only [synthesisCount_synth, refinementCount_synth, refinementCount_refine]
        omega
    | ok optImage =>
      cases optImage with
      | none =>
        simp only [hgen]
        by_cases hm : maxAttempts ≤ attempts + 1
        · rw [if_pos hm]
          simp
        · rw [if_neg hm]
          obtain ⟨h1, h2, h3⟩ := ih (attempts + 1) _ (by omega)
          refine ⟨by simpa using Nat.succ_le_succ h1, ?_, h3⟩
          simp only [synthesisCount_synth, refinementCount_synth, refinementCount_refine]
          omega
      | some imageBytes =>
        simp only [hgen]
        cases hver : env.verifyImage (attempts + 1) originalPrompt imageBytes with
        | error e =>
          simp only [hver]
          by_cases hm : maxAttempts ≤ attempts + 1
          · rw [if_pos hm]
            simp
          · rw [if_neg hm]
            obtain ⟨h1, h2, h3⟩ := ih (attempts + 1) _ (by omega)
            refine ⟨by simpa using Nat.succ_le_succ h1, ?_, h3⟩
            simp only [synthesisCount_synth, synthesisCount_verify,
              refinementCount_synth, refinementCount_verify, refinementCount_refine]
            omega
        | ok flags =>
          obtain ⟨hasGarbledText, isRelevant⟩ := flags
          simp only [hver]
          have hnotpass : ¬ ((!hasGarbledText && isRelevant) = true) := by
            intro hpass
            apply hverify (attempts + 1) imageBytes
            rw [hver]
            simp only [Bool.and_eq_true, Bool.not_eq_true'] at hpass
            rw [hpass.1, hpass.2]
          rw [if_neg hnotpass]
          by_cases hm : maxAttempts ≤ attempts + 1
          · rw [if_pos hm]
            simp
          · rw [if_neg hm]
            obtain ⟨h1, h2, h3⟩ := ih (attempts + 1) _ (by omega)
            refine ⟨by simpa using Nat.succ_le_succ h1, ?_, h3⟩
            simp only [synthesisCount_synth, synthesisCount_verify,
              refinementCount_synth, refinementCount_verify, refinementCount_refine]
            omega

/-- C4: with `maxAttempts = 3` and every attempt failing verification,
`generateAndVerifyImage` makes at most 3 synthesis calls and at most 2
refinement calls and terminates with an error. -/
theorem generateAndVerifyImage_budget (env : GenEnv) (originalPrompt : String)
    (config : GenConfig)
    (hverify : ∀ a p, env.verifyImage a originalPrompt p ≠ .ok (false, true)) :
    synthesisCount (generateAndVerifyImage env originalPrompt config 3).1 ≤ 3 ∧
    refinementCount (generateAndVerifyImage env originalPrompt config 3).1 ≤ 2 ∧
    ∃ e, (generateAndVerifyImage env originalPrompt config 3).2 = .error e :=
  genLoop_all_fail env originalPrompt config 3 hverify 3 0 originalPrompt rfl

/-- Oracle whose synthesis always succeeds and whose verification always
rejects on both axes. -/
def envAlwaysRejected : GenEnv where
  generateImages := fun _ _ => .ok (some "imagebytes")
  verifyImage := fun _ _ _ => .ok (true, true)
  improvePrompt := fun _ _ _ => "a rewritten prompt"

/-- C4, witness: the budget theorem applied to `envAlwaysRejected`. -/
theorem generateAndVerifyImage_budget_witness :
    (∀ a p, envAlwaysRejected.verifyImage a "a robot" p ≠ .ok (false, true)) ∧
    (synthesisCount (generateAndVerifyImage envAlwaysRejected "a robot"
        ⟨1, "image/png", "16:9"⟩ 3).1 ≤ 3 ∧
      refinementCount (generateAndVerifyImage envAlwaysRejected "a robot"
        ⟨1, "image/png", "16:9"⟩ 3).1 ≤ 2 ∧
      ∃ e, (generateAndVerifyImage envAlwaysRejected "a robot"
        ⟨1, "image/png", "16:9"⟩ 3).2 = .error e) :=
  ⟨fun a p h => by simp [envAlwaysRejected] at h,
    generateAndVerifyImage_budget envAlwaysRejected "a robot" ⟨1, "image/png", "16:9"⟩
      (fun a p h => by simp [envAlwaysRejected] at h)⟩

/-! ### Claim C7: verification always judges against the original prompt -/

/-- Core induction: every quality-verification request issued anywhere in
the loop carries the original prompt. -/
lemma genLoop_verifies_original (env : GenEnv) (originalPrompt : String)
    (config : GenConfig) (maxAttempts : ℕ) :
    ∀ remaining attempts currentPrompt,
      (verificationPrompts (genLoop env originalPrompt config maxAttempts
        remaining attempts currentPrompt).1).all
        (fun p => p == originalPrompt) = true := by
  intro remaining
  induction remaining with
  | zero =>
    intro attempts cur
    simp [genLoop]
  | succ n ih =>
    intro attempts cur
    simp only [genLoop]
    cases hgen : env.generateImages (attempts + 1) cur with
    | error e =>
      simp only [hgen]
      by_cases hm : maxAttempts ≤ attempts + 1
      · rw [if_pos hm]; simp
      · rw [if_neg hm]; simpa using ih (attempts + 1) _
    | ok optImage =>
      cases optImage with
      | none =>
        simp only [hgen]
        by_cases hm : maxAttempts ≤ attempts + 1
        · rw [if_pos hm]; simp
        · rw [if_neg hm]; simpa using ih (attempts + 1) _
      | some imageBytes =>
        simp only [hgen]
        cases hver : env.verifyImage (attempts + 1) originalPrompt imageBytes with
        | error e =>
          simp only [hver]
          by_cases hm : maxAttempts ≤ attempts + 1
          · rw [if_pos hm]; simp
          · rw [if_neg hm]; simpa using ih (attempts + 1) _
        | ok flags =>
          obtain ⟨hasGarbledText, isRelevant⟩ := flags
          simp only [hver]
          by_cases hpass : (!hasGarbledText && isRelevant) = true
          · rw [if_pos hpass]; simp
          · rw [if_neg hpass]
            by_cases hm : maxAttempts ≤ attempts + 1
            · rw [if_pos hm]; simp
            · rw [if_neg hm]; simpa using ih (attempts + 1) _

/-- C7: on every attempt of `generateAndVerifyImage` in which a
verification request is issued, that request is against the original
prompt supplied to the function — never the refined prompt of the current
attempt. -/
theorem generateAndVerifyImage_verifies_original (env : GenEnv)
    (originalPrompt : String) (config : GenConfig) (maxAttempts : ℕ) :
    (verificationPrompts (generateAndVerifyImage env originalPrompt config
      maxAttempts).1).all (fun p => p == originalPrompt) = true :=
  genLoop_verifies_original env originalPrompt config maxAttempts
    maxAttempts 0 originalPrompt

/-! ### Claim C8: garbled-text-only failure triggers one matching refinement -/

/-- Joining a single failed axis yields exactly that axis' message. -/
lemma verificationFailureReason_garbled_only :
    verificationFailureReason true true = garbledTextReason := rfl

/-- C8: on a non-final attempt whose synthesis succeeds and whose
verification reports `hasGarbledText = true, isRelevant = true`, the loop
issues exactly one refinement call before the next attempt — the attempt
contributes precisely a synthesis event, a verification event and a single
refinement event — and the refinement's failure reason is exactly the
garbled-text message, which does not contain the relevance message. -/
theorem generateAndVerifyImage_garbled_refinement (env : GenEnv)
    (originalPrompt : String) (config : GenConfig)
    (maxAttempts remaining attempts : ℕ) (currentPrompt imageBytes : String)
    (hgen : env.generateImages (attempts + 1) currentPrompt = .ok (some imageBytes))
    (hver : env.verifyImage (attempts + 1) originalPrompt imageBytes = .ok (true, true))
    (hnonfinal : attempts + 1 < maxAttempts) :
    genLoop env originalPrompt config maxAttempts (remaining + 1) attempts
        currentPrompt =
      (CallEvent.synthesisCall currentPrompt ::
        CallEvent.verificationCall originalPrompt ::
        CallEvent.refinementCall originalPrompt currentPrompt garbledTextReason ::
        (genLoop env originalPrompt config maxAttempts remaining (attempts + 1)
          (env.improvePrompt originalPrompt currentPrompt garbledTextReason)).1,
        (genLoop env originalPrompt config maxAttempts remaining (attempts + 1)
          (env.improvePrompt originalPrompt currentPrompt garbledTextReason)).2) ∧
    verificationFailureReason true true = garbledTextReason ∧
    ¬ notRelevantReason.data <:+: garbledTextReason.data := by
  refine ⟨?_, rfl, by decide⟩
  simp only [genLoop, hgen, hver]
  rw [if_neg (by simp : ¬ ((!true && true) = true))]
  rw [if_neg (by omega : ¬ maxAttempts ≤ attempts + 1)]
  rw [verificationFailureReason_garbled_only]

/-- C8, witness: attempt 1 of 3 with `envAlwaysRejected`-style outcomes
restricted to the garbled axis. -/
theorem generateAndVerifyImage_garbled_refinement_witness :
    genLoop
        ⟨fun _ _ => .ok (some "bytes"), fun _ _ _ => .ok (true, true),
          fun _ _ _ => "rewritten"⟩ "a lighthouse" ⟨1, "image/png", "4:3"⟩ 3 3 0
        "a lighthouse" =
      (CallEvent.synthesisCall "a lighthouse" ::
        CallEvent.verificationCall "a lighthouse" ::
        CallEvent.refinementCall "a lighthouse" "a lighthouse" garbledTextReason ::
        (genLoop ⟨fun _ _ => .ok (some "bytes"), fun _ _ _ => .ok (true, true),
            fun _ _ _ => "rewritten"⟩ "a lighthouse" ⟨1, "image/png", "4:3"⟩ 3 2 1
          "rewritten").1,
        (genLoop ⟨fun _ _ => .ok (some "bytes"), fun _ _ _ => .ok (true, true),
            fun _ _ _ => "rewritten"⟩ "a lighthouse" ⟨1, "image/png", "4:3"⟩ 3 2 1
          "rewritten").2) ∧
    verificationFailureReason true true = garbledTextReason ∧
    ¬ notRelevantReason.data <:+: garbledTextReason.data :=
  generateAndVerifyImage_garbled_refinement
    ⟨fun _ _ => .ok (some "bytes"), fun _ _ _ => .ok (true, true),
      fun _ _ _ => "rewritten"⟩ "a lighthouse" ⟨1, "image/png", "4:3"⟩ 3 2 0
    "a lighthouse" "bytes" rfl rfl (by omega)

/-! ### Characterizing the programmatic placer -/

/-- The header chosen by the programmatic placer:
`headerImageFilenameOverride || images[0].filename`. -/
def programmaticHeader (firstImage : ImageArtifact)
    (override : Option String) : String :=
  match override with
  | some s => if s = "" then firstImage.filename else s
  | none => firstImage.filename

/-- The clamped insertion index `Math.max(0, Math.min(maxIndex, idealIndex))`
of the programmatic placer. -/
def clampIndex (totalBlocks bodyCount index : ℕ) : ℤ :=
  max 0 (min (if totalBlocks > 0 then (totalBlocks : ℤ) - 1 else 0)
    (programmaticIdealIndex totalBlocks bodyCount index))

/-- On a non-empty batch the programmatic placer returns the resolved header
together with one placement per body image at the clamped ideal index (the
empty-body early return coincides with `mapIdx` over an empty list). -/
lemma getProgrammaticPlacement_cons (firstImage : ImageArtifact)
    (rest : List ImageArtifact) (contentBlocks : List String)
    (override : Option String) :
    getProgrammaticPlacement (firstImage :: rest) contentBlocks override =
      { headerImageFilename := programmaticHeader firstImage override,
        placements :=
          ((firstImage :: rest).filter (fun img =>
            img.filename ≠ programmaticHeader firstImage override)).mapIdx
            (fun index img =>
              { imageFilename := img.filename,
                afterParagraphIndex := clampIndex contentBlocks.length
                  ((firstImage :: rest).filter (fun img =>
                    img.filename ≠ programmaticHeader firstImage override)).length
                  index }) } := by
  simp only [getProgrammaticPlacement, programmaticHeader, clampIndex]
  split
  · rename_i h
    rw [List.isEmpty_iff] at h
    rw [h]
    simp
  · rfl

/-- `clampIndex` is monotone in the position. -/
lemma clampIndex_mono (totalBlocks bodyCount : ℕ) {i j : ℕ} (hij : i ≤ j) :
    clampIndex totalBlocks bodyCount i ≤ clampIndex totalBlocks bodyCount j := by
  unfold clampIndex
  refine max_le_max le_rfl (min_le_min le_rfl ?_)
  unfold programmaticIdealIndex
  apply sub_le_sub_right
  rw [round_eq, round_eq]
  apply Int.floor_le_floor
  apply add_le_add_right
  apply mul_le_mul_of_nonneg_right
  · have : (i : ℚ) ≤ (j : ℚ) := by exact_mod_cast hij
    linarith
  · positivity

/-! ### Claim C10: the programmatic placements are non-decreasing -/

/-- C10: in the strategy returned by `getProgrammaticPlacement`, a body
image earlier in the supplied batch never receives a strictly larger
`afterParagraphIndex` than a later one — the placement indices are
non-decreasing in batch order. -/
theorem getProgrammaticPlacement_monotone (images : List ImageArtifact)
    (contentBlocks : List String) (override : Option String)
    (i j : ℕ) (pI pJ : Placement) (hij : i ≤ j)
    (hi : (getProgrammaticPlacement images contentBlocks override).placements[i]? = some pI)
    (hj : (getProgrammaticPlacement images contentBlocks override).placements[j]? = some pJ) :
    pI.afterParagraphIndex ≤ pJ.afterParagraphIndex := by
  cases images with
  | nil => simp [getProgrammaticPlacement] at hi
  | cons firstImage rest =>
    simp only [getProgrammaticPlacement_cons, List.getElem?_mapIdx] at hi hj
    obtain ⟨a, ha, hpa⟩ := Option.map_eq_some'.mp hi
    obtain ⟨b, hb, hpb⟩ := Option.map_eq_some'.mp hj
    rw [← hpa, ← hpb]
    exact clampIndex_mono _ _ hij

/-- C10, witness: the monotonicity theorem applied to a three-image batch
over ten blocks at positions 0 ≤ 1. -/
theorem getProgrammaticPlacement_monotone_witness :
    (getProgrammaticPlacement
        [⟨"h.png", "", ""⟩, ⟨"b1.png", "", ""⟩, ⟨"b2.png", "", ""⟩]
        (List.replicate 10 "blk") none).placements[0]? =
      some ⟨"b1.png", 2⟩ ∧
    (getProgrammaticPlacement
        [⟨"h.png", "", ""⟩, ⟨"b1.png", "", ""⟩, ⟨"b2.png", "", ""⟩]
        (List.replicate 10 "blk") none).placements[1]? =
      some ⟨"b2.png", 6⟩ ∧
    (2 : ℤ) ≤ 6 := by
  have h0 :
      (getProgrammaticPlacement
        [⟨"h.png", "", ""⟩, ⟨"b1.png", "", ""⟩, ⟨"b2.png", "", ""⟩]
        (List.replicate 10 "blk") none).placements[0]? = some ⟨"b1.png", 2⟩ := by
    simp [getProgrammaticPlacement, List.filter_cons, List.mapIdx_cons]
    norm_num [programmaticIdealIndex, round_eq]
  have h1 :
      (getProgrammaticPlacement
        [⟨"h.png", "", ""⟩, ⟨"b1.png", "", ""⟩, ⟨"b2.png", "", ""⟩]
        (List.replicate 10 "blk") none).placements[1]? = some ⟨"b2.png", 6⟩ := by
    simp [getProgrammaticPlacement, List.filter_cons, List.mapIdx_cons]
    norm_num [programmaticIdealIndex, round_eq]
  exact ⟨h0, h1,
    getProgrammaticPlacement_monotone
      [⟨"h.png", "", ""⟩, ⟨"b1.png", "", ""⟩, ⟨"b2.png", "", ""⟩]
      (List.replicate 10 "blk") none 0 1 ⟨"b1.png", 2⟩ ⟨"b2.png", 6⟩
      (by omega) h0 h1⟩

/-! ### Claim C3: the programmatic placer against the spec's formula -/

/-- Header choice as the amended claim words it: the override when one is
given and non-empty, otherwise the first image of the batch. -/
def claimedHeaderChoice (firstImage : ImageArtifact)
    (override : Option String) : String :=
  match override with
  | some s => if s ≠ "" then s else firstImage.filename
  | none => firstImage.filename

/-- Target index as the claim words it: `round((i+1) * step) - 1` with
`step = blockCount / (M + 1)`, clamped into `[0, blockCount-1]`, and `0`
when `blockCount = 0`. -/
def claimedTargetIndex (blockCount bodyCount position : ℕ) : ℤ :=
  if blockCount = 0 then 0
  else
    max 0 (min ((blockCount : ℤ) - 1)
      (round (((position : ℚ) + 1) *
        ((blockCount : ℚ) / ((bodyCount : ℚ) + 1))) - 1))

/-- The code's header choice agrees with the amended claim's. -/
lemma programmaticHeader_eq_claimed (firstImage : ImageArtifact)
    (override : Option String) :
    programmaticHeader firstImage override =
      claimedHeaderChoice firstImage override := by
  unfold programmaticHeader claimedHeaderChoice
  cases override with
  | none => rfl
  | some s =>
    by_cases h : s = "" <;> simp [h]

/-- The code's clamped index agrees with the claim's formula. -/
lemma clampIndex_eq_claimed (blockCount bodyCount position : ℕ) :
    clampIndex blockCount bodyCount position =
      claimedTargetIndex blockCount bodyCount position := by
  unfold clampIndex claimedTargetIndex programmaticIdealIndex
  by_cases hB : blockCount = 0
  · subst hB
    norm_num
  · rw [if_neg hB, if_pos (by omega : blockCount > 0)]

/-- C3, counterexample: with override `some ""` (a well-typed `string`
override in the TypeScript signature) the code's `||` treats the override
as absent and selects the first image, not the override. -/
theorem getProgrammaticPlacement_empty_override_counterexample :
    (getProgrammaticPlacement [⟨"a.png", "", ""⟩] ["b0"]
      (some "")).headerImageFilename = "a.png" ∧
    ("a.png" : String) ≠ "" := by
  constructor
  · simp [getProgrammaticPlacement]
  · simp

/-- Mapping placements back to their filenames undoes the `mapIdx`. -/
lemma map_imageFilename_mapIdx (l : List ImageArtifact) (g : ℕ → ℤ) :
    ((l.mapIdx (fun index img => Placement.mk img.filename (g index))).map
      (fun p => p.imageFilename)) = l.map (fun img => img.filename) := by
  apply List.ext_getElem
  · simp
  · intro n h1 h2
    simp

/-- C3, amended: on a non-empty batch with unique filenames,
`getProgrammaticPlacement` selects as header the override when it is given
and non-empty (else the first image); with the body images being the batch
minus the header, the placement at position `k` is the `k`-th body image at
index `claimedTargetIndex`, and every body image receives exactly one
placement. -/
theorem getProgrammaticPlacement_amended_spec (firstImage : ImageArtifact)
    (rest : List ImageArtifact) (contentBlocks : List String)
    (override : Option String)
    (hnd : ((firstImage :: rest).map (fun img => img.filename)).Nodup) :
    (getProgrammaticPlacement (firstImage :: rest) contentBlocks
        override).headerImageFilename =
      claimedHeaderChoice firstImage override ∧
    (getProgrammaticPlacement (firstImage :: rest) contentBlocks
        override).placements.length =
      ((firstImage :: rest).filter (fun img =>
        img.filename ≠ claimedHeaderChoice firstImage override)).length ∧
    (∀ k : ℕ,
      (getProgrammaticPlacement (firstImage :: rest) contentBlocks
        override).placements[k]? =
      (((firstImage :: rest).filter (fun img =>
        img.filename ≠ claimedHeaderChoice firstImage override))[k]?.map
        (fun img => Placement.mk img.filename
          (claimedTargetIndex contentBlocks.length
            ((firstImage :: rest).filter (fun img =>
              img.filename ≠ claimedHeaderChoice firstImage override)).length
            k)))) ∧
    (∀ img ∈ (firstImage :: rest).filter (fun img =>
        img.filename ≠ claimedHeaderChoice firstImage override),
      ((getProgrammaticPlacement (firstImage :: rest) contentBlocks
        override).placements.map (fun p => p.imageFilename)).count
        img.filename = 1) := by
  have hhdr := programmaticHeader_eq_claimed firstImage override
  refine ⟨?_, ?_, ?_, ?_⟩
  · rw [getProgrammaticPlacement_cons, hhdr]
  · rw [getProgrammaticPlacement_cons, hhdr]
    simp
  · intro k
    rw [getProgrammaticPlacement_cons, hhdr]
    simp only [List.getElem?_mapIdx]
    rw [clampIndex_eq_claimed]
  · intro img hmem
    rw [getProgrammaticPlacement_cons, hhdr]
    simp only
    rw [map_imageFilename_mapIdx]
    have hcomm :
        (((firstImage :: rest).filter (fun img =>
          img.filename ≠ claimedHeaderChoice firstImage override)).map
            (fun img => img.filename)) =
        (((firstImage :: rest).map (fun img => img.filename)).filter
          (fun s => s ≠ claimedHeaderChoice firstImage override)) := by
      rw [List.filter_map]
      rfl
    rw [hcomm]
    exact List.count_eq_one_of_mem (hnd.filter _)
      (by
        rw [← hcomm]
        exact List.mem_map_of_mem _ hmem)

/-- C3, witness: the amended theorem applied to a three-image batch over
four blocks with no override, instantiated at position 0 and the first body
image. -/
theorem getProgrammaticPlacement_amended_spec_witness :
    (getProgrammaticPlacement
        [⟨"h.png", "", ""⟩, ⟨"b1.png", "", ""⟩, ⟨"b2.png", "", ""⟩]
        ["p0", "p1", "p2", "p3"] none).headerImageFilename =
      claimedHeaderChoice ⟨"h.png", "", ""⟩ none ∧
    (getProgrammaticPlacement
        [⟨"h.png", "", ""⟩, ⟨"b1.png", "", ""⟩, ⟨"b2.png", "", ""⟩]
        ["p0", "p1", "p2", "p3"] none).placements[0]? =
      some (Placement.mk "b1.png" (claimedTargetIndex 4 2 0)) ∧
    ((getProgrammaticPlacement
        [⟨"h.png", "", ""⟩, ⟨"b1.png", "", ""⟩, ⟨"b2.png", "", ""⟩]
        ["p0", "p1", "p2", "p3"] none).placements.map
      (fun p => p.imageFilename)).count "b1.png" = 1 := by
  have h := getProgrammaticPlacement_amended_spec ⟨"h.png", "", ""⟩
    [⟨"b1.png", "", ""⟩, ⟨"b2.png", "", ""⟩] ["p0", "p1", "p2", "p3"] none
    (by simp)
  refine ⟨h.1, ?_, ?_⟩
  · have h2 := h.2.2.1 0
    rw [h2]
    simp [List.filter_cons, claimedHeaderChoice]
  · exact h.2.2.2 ⟨"b1.png", "", ""⟩ (by simp [claimedHeaderChoice])

/-! ### Claim C1: completeness of the validation pass -/

/-- C1, counterexample: batch `[a.png, b.png]` with unique filenames, raw
proposal `header = a.png`, placements `[{b.png, 0}, {b.png, 1}]` naming
`b.png` twice, two content blocks.  The validation pass keeps both
duplicate placements: `b.png` appears in two placements, and the result is
not a hand-off to the programmatic placer. -/
theorem planValidate_duplicate_counterexample :
    planValidate [⟨"a.png", "", ""⟩, ⟨"b.png", "", ""⟩] ["p0", "p1"]
        ⟨"a.png", [⟨"b.png", 0⟩, ⟨"b.png", 1⟩]⟩ true none =
      (⟨"a.png", [⟨"b.png", 0⟩, ⟨"b.png", 1⟩]⟩, []) ∧
    ((planValidate [⟨"a.png", "", ""⟩, ⟨"b.png", "", ""⟩] ["p0", "p1"]
        ⟨"a.png", [⟨"b.png", 0⟩, ⟨"b.png", 1⟩]⟩ true
        none).1.placements.map (fun p => p.imageFilename)).count "b.png" = 2 ∧
    (planValidate [⟨"a.png", "", ""⟩, ⟨"b.png", "", ""⟩] ["p0", "p1"]
        ⟨"a.png", [⟨"b.png", 0⟩, ⟨"b.png", 1⟩]⟩ true none).1 ≠
      getProgrammaticPlacement [⟨"a.png", "", ""⟩, ⟨"b.png", "", ""⟩]
        ["p0", "p1"] none ∧
    (planValidate [⟨"a.png", "", ""⟩, ⟨"b.png", "", ""⟩] ["p0", "p1"]
        ⟨"a.png", [⟨"b.png", 0⟩, ⟨"b.png", 1⟩]⟩ true none).1 ≠
      getProgrammaticPlacement [⟨"a.png", "", ""⟩, ⟨"b.png", "", ""⟩]
        ["p0", "p1"] (some "a.png") := by
  have heval :
      planValidate [⟨"a.png", "", ""⟩, ⟨"b.png", "", ""⟩] ["p0", "p1"]
        ⟨"a.png", [⟨"b.png", 0⟩, ⟨"b.png", 1⟩]⟩ true none =
      (⟨"a.png", [⟨"b.png", 0⟩, ⟨"b.png", 1⟩]⟩, []) := by
    simp [planValidate, resolveHeader, planBodyPlacements, isClustered,
      List.filter_cons, List.find?]
  have hprog :
      getProgrammaticPlacement [⟨"a.png", "", ""⟩, ⟨"b.png", "", ""⟩]
        ["p0", "p1"] none =
      ⟨"a.png", [⟨"b.png", 0⟩]⟩ := by
    simp [getProgrammaticPlacement, List.filter_cons, List.mapIdx_cons]
    norm_num [programmaticIdealIndex, round_eq]
  have hprog2 :
      getProgrammaticPlacement [⟨"a.png", "", ""⟩, ⟨"b.png", "", ""⟩]
        ["p0", "p1"] (some "a.png") =
      ⟨"a.png", [⟨"b.png", 0⟩]⟩ := by
    simp [getProgrammaticPlacement, List.filter_cons, List.mapIdx_cons]
    norm_num [programmaticIdealIndex, round_eq]
  refine ⟨heval, ?_, ?_, ?_⟩
  · rw [heval]
    simp
  · rw [heval, hprog]
    simp
  · rw [heval, hprog2]
    simp

/-- With unique filenames, a non-header image's filename occurs exactly once
among the body images' filenames. -/
lemma count_filename_body_filter (images : List ImageArtifact) (header : String)
    (hnd : (images.map (fun i => i.filename)).Nodup)
    (img : ImageArtifact) (hmem : img ∈ images) (hne : img.filename ≠ header) :
    ((images.filter (fun i => i.filename ≠ header)).map
      (fun i => i.filename)).count img.filename = 1 := by
  have hcomm :
      ((images.filter (fun i => i.filename ≠ header)).map (fun i => i.filename)) =
      ((images.map (fun i => i.filename)).filter (fun s => s ≠ header)) := by
    rw [List.filter_map]
    rfl
  rw [hcomm]
  refine List.count_eq_one_of_mem (hnd.filter _) ?_
  rw [← hcomm]
  exact List.mem_map_of_mem _ (List.mem_filter.mpr ⟨hmem, by simpa using hne⟩)

/-- Core counting argument of the validation pass: with unique image
filenames and a duplicate-free proposal, every known non-header image is
named by exactly one repaired body placement — either its unique surviving
proposed placement, or the single appended last-block placement. -/
lemma planBodyPlacements_count (allImages : List ImageArtifact)
    (finalHeader : String) (proposed : List Placement) (maxIndex : ℤ)
    (hndAll : (allImages.map (fun i => i.filename)).Nodup)
    (hndProp : (proposed.map (fun p => p.imageFilename)).Nodup)
    (img : ImageArtifact) (hmem : img ∈ allImages)
    (hne : img.filename ≠ finalHeader) :
    ((planBodyPlacements allImages finalHeader proposed maxIndex).map
      (fun p => p.imageFilename)).count img.filename = 1 := by
  unfold planBodyPlacements
  simp only [List.map_append, List.count_append, List.map_map]
  have hany : (allImages.any fun i => decide (i.filename = img.filename)) = true := by
    simp only [List.any_eq_true]
    exact ⟨img, hmem, by simp⟩
  have hcount1 :
      List.count img.filename
        ((proposed.filter (fun p =>
          decide (p.imageFilename ≠ finalHeader ∧
            (allImages.any fun i => decide (i.filename = p.imageFilename)) = true))).map
          (fun p => p.imageFilename)) =
      List.count img.filename (proposed.map (fun p => p.imageFilename)) := by
    rw [List.count_eq_countP, List.count_eq_countP, List.countP_map, List.countP_map,
      List.countP_filter]
    apply List.countP_congr
    intro p hp
    by_cases h : p.imageFilename = img.filename
    · simp [Function.comp, h, hne, hany]
    · simp [Function.comp, h]
  have hmemiff :
      img.filename ∈ ((proposed.filter (fun p =>
          decide (p.imageFilename ≠ finalHeader ∧
            (allImages.any fun i => decide (i.filename = p.imageFilename)) = true))).map
          (fun p => p.imageFilename)) ↔
      img.filename ∈ proposed.map (fun p => p.imageFilename) := by
    rw [← List.count_pos_iff, ← List.count_pos_iff, hcount1]
  by_cases hin : img.filename ∈ proposed.map (fun p => p.imageFilename)
  · have h1 := hcount1.trans (List.count_eq_one_of_mem hndProp hin)
    have h2 :
        List.count img.filename
          (List.map
            ((fun p : Placement => p.imageFilename) ∘ fun img : ImageArtifact =>
              ({ imageFilename := img.filename, afterParagraphIndex := maxIndex } : Placement))
            (allImages.filter (fun a =>
              decide (a.filename ≠ finalHeader ∧
                a.filename ∉
                  ((proposed.filter (fun p =>
                    decide (p.imageFilename ≠ finalHeader ∧
                      (allImages.any fun i => decide (i.filename = p.imageFilename)) = true))).map
                    (fun p => p.imageFilename)))))) = 0 := by
      rw [List.count_eq_countP, List.countP_map, List.countP_filter, List.countP_eq_zero]
      intro a ha
      by_cases h : a.filename = img.filename
      · have hplaced := hmemiff.mpr hin
        intro hcontra
        rw [Bool.and_eq_true] at hcontra
        have hQ := hcontra.2
        rw [decide_eq_true_eq] at hQ
        exact hQ.2 (by rw [h]; exact hplaced)
      · intro hcontra
        rw [Bool.and_eq_true] at hcontra
        have hfst := hcontra.1
        simp [Function.comp] at hfst
        exact h hfst
    rw [h1, h2]
  · have h1 :
        List.count img.filename
          ((proposed.filter (fun p =>
            decide (p.imageFilename ≠ finalHeader ∧
              (allImages.any fun i => decide (i.filename = p.imageFilename)) = true))).map
            (fun p => p.imageFilename)) = 0 := by
      rw [hcount1]
      exact List.count_eq_zero.mpr hin
    have hnotplaced :
        img.filename ∉ ((proposed.filter (fun p =>
          decide (p.imageFilename ≠ finalHeader ∧
            (allImages.any fun i => decide (i.filename = p.imageFilename)) = true))).map
          (fun p => p.imageFilename)) := fun hmem' => hin (hmemiff.mp hmem')
    have h2 :
        List.count img.filename
          (List.map
            ((fun p : Placement => p.imageFilename) ∘ fun img : ImageArtifact =>
              ({ imageFilename := img.filename, afterParagraphIndex := maxIndex } : Placement))
            (allImages.filter (fun a =>
              decide (a.filename ≠ finalHeader ∧
                a.filename ∉
                  ((proposed.filter (fun p =>
                    decide (p.imageFilename ≠ finalHeader ∧
                      (allImages.any fun i => decide (i.filename = p.imageFilename)) = true))).map
                    (fun p => p.imageFilename)))))) = 1 := by
      rw [List.count_eq_countP, List.countP_map, List.countP_filter]
      have hcongr :
          List.countP
            (fun a =>
              ((fun x => x == img.filename) ∘
                ((fun p => p.imageFilename) ∘ fun img =>
                  ({ imageFilename := img.filename, afterParagraphIndex := maxIndex } : Placement))) a &&
              (fun a =>
                decide (a.filename ≠ finalHeader ∧
                  a.filename ∉
                    ((proposed.filter (fun p =>
                      decide (p.imageFilename ≠ finalHeader ∧
                        (allImages.any fun i => decide (i.filename = p.imageFilename)) = true))).map
                      (fun p => p.imageFilename)))) a) allImages =
          List.countP (fun a => a.filename == img.filename) allImages := by
        apply List.countP_congr
        intro a ha
        by_cases h : a.filename = img.filename
        · constructor
          · intro _
            simp [h]
          · intro _
            rw [Bool.and_eq_true]
            refine ⟨by simp [Function.comp, h], ?_⟩
            rw [decide_eq_true_eq]
            exact ⟨by rw [h]; exact hne, by rw [h]; exact hnotplaced⟩
        · constructor
          · intro hcontra
            rw [Bool.and_eq_true] at hcontra
            have hfst := hcontra.1
            simp [Function.comp] at hfst
            exact absurd hfst h
          · intro hcontra
            simp at hcontra
            exact absurd hcontra h
      rw [hcongr]
      rw [show (fun a : ImageArtifact => a.filename == img.filename) =
        ((fun x => x == img.filename) ∘ fun i : ImageArtifact => i.filename) from rfl]
      rw [← List.countP_map, ← List.count_eq_countP]
      exact List.count_eq_one_of_mem hndAll (List.mem_map_of_mem _ hmem)
    rw [h1, h2]

/-- The final out-of-range reset step does not change which image a
placement names. -/
lemma map_imageFilename_clamp (l : List Placement) (maxIndex : ℤ) :
    ((l.map (fun p =>
      if p.afterParagraphIndex < 0 ∨ p.afterParagraphIndex > maxIndex then
        { p with afterParagraphIndex := maxIndex }
      else p)).map (fun p => p.imageFilename)) =
    l.map (fun p => p.imageFilename) := by
  rw [List.map_map]
  congr 1
  funext p
  simp only [Function.comp]
  split <;> rfl

/-- Appending a freshly named generated header keeps filenames unique. -/
lemma nodup_all_images (images : List ImageArtifact) (nh : ImageArtifact)
    (hnd : (images.map (fun i => i.filename)).Nodup)
    (hfresh : nh.filename ∉ images.map (fun i => i.filename)) :
    ((images ++ [nh]).map (fun i => i.filename)).Nodup := by
  rw [List.map_append, List.nodup_append]
  refine ⟨hnd, List.nodup_singleton _, ?_⟩
  intro a ha hb
  simp only [List.map_cons, List.map_nil, List.mem_singleton] at hb
  subst hb
  exact hfresh ha

/-- The programmatic placer also names every non-header image exactly once
(used for both hand-off branches of the validation pass). -/
lemma getProgrammaticPlacement_count (images : List ImageArtifact)
    (contentBlocks : List String) (override : Option String)
    (hnd : (images.map (fun i => i.filename)).Nodup) :
    ∀ img ∈ images,
      img.filename ≠
        (getProgrammaticPlacement images contentBlocks override).headerImageFilename →
      ((getProgrammaticPlacement images contentBlocks override).placements.map
        (fun p => p.imageFilename)).count img.filename = 1 := by
  intro img hmem hneq
  cases images with
  | nil => simp at hmem
  | cons firstImage rest =>
    simp only [getProgrammaticPlacement_cons] at hneq ⊢
    rw [map_imageFilename_mapIdx]
    exact count_filename_body_filter (firstImage :: rest) _ hnd img hmem hneq

/-- C1, amended: for every raw proposal whose placements list each filename
at most once, every non-empty image batch with unique filenames and any
gate outcome whose generated replacement (if any) has a fresh filename, the
validation pass of `planImagePlacements` returns a strategy in which every
image of the batch other than the final header appears in exactly one
placement (the hand-off branches return programmatic strategies with the
same property). -/
theorem planValidate_amended_exactly_once
    (images : List ImageArtifact) (contentBlocks : List String)
    (initialStrategy : PlacementStrategy) (suitable : Bool)
    (genResult : Option ImageArtifact)
    (hnd : (images.map (fun i => i.filename)).Nodup)
    (hfresh : ∀ nh, genResult = some nh →
      nh.filename ∉ images.map (fun i => i.filename))
    (hraw : (initialStrategy.placements.map (fun p => p.imageFilename)).Nodup) :
    ∀ img ∈ images,
      img.filename ≠
        (planValidate images contentBlocks initialStrategy suitable
          genResult).1.headerImageFilename →
      (((planValidate images contentBlocks initialStrategy suitable
        genResult).1.placements.map
        (fun p => p.imageFilename)).count img.filename) = 1 := by
  intro img hmem hneq
  have hres : (resolveHeader images initialStrategy.headerImageFilename suitable
        genResult).2 = [] ∨
      ∃ nh, genResult = some nh ∧
        resolveHeader images initialStrategy.headerImageFilename suitable genResult =
          (nh.filename, [nh]) := by
    unfold resolveHeader
    cases hfind : images.find? (fun i => i.filename = initialStrategy.headerImageFilename) with
    | none => left; rfl
    | some found =>
      by_cases hs : suitable
      · left; simp [hs]
      · cases hgen : genResult with
        | none => left; simp [hs]
        | some nh => right; exact ⟨nh, rfl, by simp [hs]⟩
  have hndAll : ((images ++ (resolveHeader images
      initialStrategy.headerImageFilename suitable genResult).2).map
      (fun i => i.filename)).Nodup := by
    rcases hres with h | ⟨nh, hgen, hres2⟩
    · rw [h]
      simpa using hnd
    · rw [hres2]
      exact nodup_all_images images nh hnd (hfresh nh hgen)
  have hmemAll : img ∈ images ++ (resolveHeader images
      initialStrategy.headerImageFilename suitable genResult).2 :=
    List.mem_append_left _ hmem
  simp only [planValidate] at hneq ⊢
  set maxIdx : ℤ := if contentBlocks.length > 0 then (contentBlocks.length : ℤ) - 1 else 0 with hmax
  split
  next hcond =>
    rw [if_pos hcond] at hneq
    exact getProgrammaticPlacement_count images contentBlocks none hnd img hmem hneq
  next hcond =>
    rw [if_neg hcond] at hneq
    split
    next hclus =>
      rw [if_pos hclus] at hneq
      exact getProgrammaticPlacement_count _ contentBlocks _ hndAll img hmemAll hneq
    next hclus =>
      rw [if_neg hclus] at hneq
      simp only at hneq ⊢
      rw [map_imageFilename_clamp]
      exact planBodyPlacements_count _ _ _ _ hndAll hraw img hmemAll hneq

/-- C1, witness: the amended theorem applied to batch `[a.png, b.png]` with
a duplicate-free proposal placing `b.png` once. -/
theorem planValidate_amended_exactly_once_witness :
    (([⟨"a.png", "", ""⟩, ⟨"b.png", "", ""⟩] : List ImageArtifact).map
      (fun i => i.filename)).Nodup ∧
    ((planValidate [⟨"a.png", "", ""⟩, ⟨"b.png", "", ""⟩] ["p0", "p1"]
        ⟨"a.png", [⟨"b.png", 0⟩]⟩ true none).1.placements.map
      (fun p => p.imageFilename)).count "b.png" = 1 := by
  have heval :
      planValidate [⟨"a.png", "", ""⟩, ⟨"b.png", "", ""⟩] ["p0", "p1"]
        ⟨"a.png", [⟨"b.png", 0⟩]⟩ true none =
      (⟨"a.png", [⟨"b.png", 0⟩]⟩, []) := by
    simp [planValidate, resolveHeader, planBodyPlacements, isClustered,
      List.filter_cons, List.find?]
  refine ⟨by simp, ?_⟩
  exact planValidate_amended_exactly_once
    [⟨"a.png", "", ""⟩, ⟨"b.png", "", ""⟩] ["p0", "p1"]
    ⟨"a.png", [⟨"b.png", 0⟩]⟩ true none (by simp)
    (fun nh h => by simp at h) (by simp) ⟨"b.png", "", ""⟩ (by simp)
    (by rw [heval]; simp)

/-! ### Claim C9: header replacement demotes the original header -/

/-- C9, amended: when the AI-chosen header is in the batch and the gate
rejects it, a replacement is generated successfully under a fresh filename,
the article has at least one content block, the raw proposal does not itself
list the chosen header among its placements, and the repaired layout is not
degenerate, then the finalized strategy's header is the replacement's
filename, the replacement artifact is returned in `newImages`, and the
demoted originally-chosen header is appended as a body placement after the
last content block (`blockCount - 1`). -/
theorem planValidate_header_replacement
    (images : List ImageArtifact) (contentBlocks : List String)
    (initialStrategy : PlacementStrategy) (nh headerImage : ImageArtifact)
    (hfind : images.find? (fun i => i.filename = initialStrategy.headerImageFilename) =
      some headerImage)
    (hfresh : nh.filename ∉ images.map (fun i => i.filename))
    (hnotplaced : ∀ p ∈ initialStrategy.placements,
      p.imageFilename ≠ initialStrategy.headerImageFilename)
    (hblocks : contentBlocks ≠ [])
    (hnc : isClustered
      ((planBodyPlacements (images ++ [nh]) nh.filename initialStrategy.placements
        ((contentBlocks.length : ℤ) - 1)).map (fun p => p.afterParagraphIndex))
      contentBlocks.length = false) :
    (planValidate images contentBlocks initialStrategy false
      (some nh)).1.headerImageFilename = nh.filename ∧
    (planValidate images contentBlocks initialStrategy false (some nh)).2 = [nh] ∧
    (⟨initialStrategy.headerImageFilename, (contentBlocks.length : ℤ) - 1⟩ : Placement) ∈
      (planValidate images contentBlocks initialStrategy false (some nh)).1.placements := by
  have hres : resolveHeader images initialStrategy.headerImageFilename false (some nh) =
      (nh.filename, [nh]) := by
    unfold resolveHeader
    rw [hfind]
    simp
  have hlen : contentBlocks.length > 0 := List.length_pos.mpr hblocks
  have hany : ((images ++ [nh]).any (fun i => decide (i.filename = nh.filename))) = true := by
    simp
  have hhf : headerImage.filename = initialStrategy.headerImageFilename := by
    have := List.find?_some hfind
    simpa using this
  have hmemHeader : headerImage ∈ images := List.mem_of_find?_eq_some hfind
  simp only [planValidate, hres]
  simp only [if_pos hlen]
  rw [if_neg (by simp [hany] : ¬ ((!(images ++ [nh]).any
    (fun i => decide (i.filename = nh.filename))) = true))]
  rw [if_neg (by simp [hnc] : ¬ (isClustered
    ((planBodyPlacements (images ++ [nh]) nh.filename initialStrategy.placements
      ((contentBlocks.length : ℤ) - 1)).map (fun p => p.afterParagraphIndex))
    contentBlocks.length = true))]
  refine ⟨rfl, rfl, ?_⟩
  have hQmem : headerImage ∈ (images ++ [nh]).filter (fun a =>
      decide (a.filename ≠ nh.filename ∧
        a.filename ∉ ((initialStrategy.placements.filter (fun p =>
          decide (p.imageFilename ≠ nh.filename ∧
            ((images ++ [nh]).any fun i => decide (i.filename = p.imageFilename)) = true))).map
          (fun p => p.imageFilename)))) := by
    rw [List.mem_filter]
    refine ⟨List.mem_append_left _ hmemHeader, ?_⟩
    rw [decide_eq_true_eq]
    constructor
    · intro hcontra
      exact hfresh (hcontra ▸ List.mem_map_of_mem _ hmemHeader)
    · intro hcontra
      obtain ⟨p, hp, hpe⟩ := List.mem_map.mp hcontra
      have hp' := List.mem_of_mem_filter hp
      exact hnotplaced p hp' (by rw [hpe, hhf])
  have hplmem : (⟨initialStrategy.headerImageFilename,
      (contentBlocks.length : ℤ) - 1⟩ : Placement) ∈
      planBodyPlacements (images ++ [nh]) nh.filename initialStrategy.placements
        ((contentBlocks.length : ℤ) - 1) := by
    unfold planBodyPlacements
    refine List.mem_append_right _ ?_
    refine List.mem_map.mpr ⟨headerImage, hQmem, ?_⟩
    simp [hhf]
  refine List.mem_map.mpr ⟨⟨initialStrategy.headerImageFilename,
    (contentBlocks.length : ℤ) - 1⟩, hplmem, ?_⟩
  rw [if_neg]
  intro h
  simp only at h
  omega

/-- C9, counterexample: if the raw proposal itself lists the chosen header
(`a.png`) among its placements, the demoted header keeps that surviving
placement (index 0) instead of being appended after the last block — header
replacement and `newImages` still behave as claimed, but no
`{a.png, blockCount - 1}` placement exists. -/
theorem planValidate_header_replacement_counterexample :
    (planValidate [⟨"a.png", "", ""⟩, ⟨"b.png", "", ""⟩] ["p0", "p1", "p2"]
        ⟨"a.png", [⟨"a.png", 0⟩, ⟨"b.png", 1⟩]⟩ false (some ⟨"g.png", "", ""⟩)).1 =
      ⟨"g.png", [⟨"a.png", 0⟩, ⟨"b.png", 1⟩]⟩ ∧
    (planValidate [⟨"a.png", "", ""⟩, ⟨"b.png", "", ""⟩] ["p0", "p1", "p2"]
        ⟨"a.png", [⟨"a.png", 0⟩, ⟨"b.png", 1⟩]⟩ false (some ⟨"g.png", "", ""⟩)).2 =
      [⟨"g.png", "", ""⟩] ∧
    (⟨"a.png", ((["p0", "p1", "p2"] : List String).length : ℤ) - 1⟩ : Placement) ∉
      (planValidate [⟨"a.png", "", ""⟩, ⟨"b.png", "", ""⟩] ["p0", "p1", "p2"]
        ⟨"a.png", [⟨"a.png", 0⟩, ⟨"b.png", 1⟩]⟩ false
        (some ⟨"g.png", "", ""⟩)).1.placements := by
  have heval :
      planValidate [⟨"a.png", "", ""⟩, ⟨"b.png", "", ""⟩] ["p0", "p1", "p2"]
        ⟨"a.png", [⟨"a.png", 0⟩, ⟨"b.png", 1⟩]⟩ false (some ⟨"g.png", "", ""⟩) =
      (⟨"g.png", [⟨"a.png", 0⟩, ⟨"b.png", 1⟩]⟩, [⟨"g.png", "", ""⟩]) := by
    simp [planValidate, resolveHeader, planBodyPlacements, isClustered,
      List.filter_cons, List.find?]
  rw [heval]
  refine ⟨rfl, rfl, ?_⟩
  simp

/-- C9, witness: the amended theorem applied to batch `[a.png, b.png]`,
three blocks, proposal `header = a.png, placements = [{b.png, 1}]`, gate
rejection, and replacement `g.png`. -/
theorem planValidate_header_replacement_witness :
    (planValidate [⟨"a.png", "", ""⟩, ⟨"b.png", "", ""⟩] ["p0", "p1", "p2"]
        ⟨"a.png", [⟨"b.png", 1⟩]⟩ false
        (some ⟨"g.png", "", ""⟩)).1.headerImageFilename = "g.png" ∧
    (planValidate [⟨"a.png", "", ""⟩, ⟨"b.png", "", ""⟩] ["p0", "p1", "p2"]
        ⟨"a.png", [⟨"b.png", 1⟩]⟩ false (some ⟨"g.png", "", ""⟩)).2 =
      [⟨"g.png", "", ""⟩] ∧
    (⟨"a.png", ((["p0", "p1", "p2"] : List String).length : ℤ) - 1⟩ : Placement) ∈
      (planValidate [⟨"a.png", "", ""⟩, ⟨"b.png", "", ""⟩] ["p0", "p1", "p2"]
        ⟨"a.png", [⟨"b.png", 1⟩]⟩ false
        (some ⟨"g.png", "", ""⟩)).1.placements := by
  have h := planValidate_header_replacement
    [⟨"a.png", "", ""⟩, ⟨"b.png", "", ""⟩] ["p0", "p1", "p2"]
    ⟨"a.png", [⟨"b.png", 1⟩]⟩ ⟨"g.png", "", ""⟩ ⟨"a.png", "", ""⟩
    (by simp [List.find?])
    (by simp)
    (by intro p hp; simp at hp; subst hp; simp)
    (by simp)
    (by simp [planBodyPlacements, isClustered, List.filter_cons])
  simpa using h
